import Mathlib

/-!
Verification development for the device connectivity and pairing
orchestration subsystem of an Apple TV control adapter.

The JavaScript source is embedded shallowly: strings are lists of
characters, subprocess and timer effects are explicit values, and each
handler becomes a pure function from its inputs and the relevant state
to a result plus a list of emitted effects.
-/

/-- Character class of the JavaScript whitespace escape as used by
String.prototype.trim and the regex class backslash-s, restricted to the
ASCII whitespace characters plus the two Unicode line separators (the
characters that can actually occur in the subprocess output handled
here). -/
def isWs (c : Char) : Bool :=
  c == ' ' || c == '\t' || c == '\n' || c == '\r' || c == '\x0b' || c == '\x0c' ||
  c == '\u2028' || c == '\u2029'

/-- Character class matched by the regex dot: any character except a line
terminator. -/
def notLineTerm (c : Char) : Bool :=
  !(c == '\n' || c == '\r' || c == '\u2028' || c == '\u2029')

/-- JavaScript String.prototype.trim on a list of characters. -/
def trimChars (l : List Char) : List Char :=
  ((l.dropWhile isWs).reverse.dropWhile isWs).reverse

/-- JavaScript String.prototype.toLowerCase restricted to ASCII data. -/
def jsToLower (l : List Char) : List Char :=
  l.map Char.toLower

/-- JavaScript buffer.split(newline) followed by lines.pop(): the first
component is the list of complete lines, the second the trailing unterminated
line (the new buffer). Mirrors the stdout handler of startPushUpdates. -/
def splitNl : List Char → List (List Char) × List Char
  | [] => ([], [])
  | c :: cs =>
    match splitNl cs with
    | (ls, b) =>
      if c = '\n' then ([] :: ls, b)
      else
        match ls with
        | [] => ([], c :: b)
        | h :: t => ((c :: h) :: t, b)

/-- All parts of JavaScript output.split(newline), trailing part included. -/
def splitAllNl (output : List Char) : List (List Char) :=
  (splitNl output).1 ++ [(splitNl output).2]

/-- Character class of the regex class 0-9a-fA-F plus colon used by the
credential fallback test. -/
def isHexColonChar (c : Char) : Bool :=
  ('0' ≤ c && c ≤ '9') || ('a' ≤ c && c ≤ 'f') || ('A' ≤ c && c ≤ 'F') || c == ':'

/-- The line preprocessing of PyatvBackend._extractCredentials:
output.split(newline).map(trim).filter(nonempty). -/
def credLines (output : List Char) : List (List Char) :=
  ((splitAllNl output).map trimChars).filter (fun l => !l.isEmpty)

/-- Semantics of the regex tail (backslash-s star, then a captured dot-plus)
applied to the text after the credentials marker, followed by the trim on
the captured group.  When the remainder holds no match position the engine
moves on, which the caller models by continuing the scan. -/
def credCapture (rest : List Char) : Option (List Char) :=
  let r1 := rest.dropWhile isWs
  if r1.isEmpty then none
  else some (trimChars (r1.takeWhile notLineTerm))

/-- One regex match attempt of [Cc]redentials?: at the head of the given
suffix of a line: the variant with the letter s is preferred, the
colon must follow, and the first letter may be upper or lower case. -/
def credAt (l : List Char) : Option (List Char) :=
  if l.take 12 == ("credentials:").toList || l.take 12 == ("Credentials:").toList then
    credCapture (l.drop 12)
  else if l.take 11 == ("credential:").toList || l.take 11 == ("Credential:").toList then
    credCapture (l.drop 11)
  else none

/-- Leftmost regex search of [Cc]redentials?: with captured remainder over
one line, as line.match performs it. -/
def credScan : List Char → Option (List Char)
  | [] => none
  | c :: cs =>
    match credAt (c :: cs) with
    | some v => some v
    | none => credScan cs

/-- The first for-loop of _extractCredentials: top-to-bottom scan of the
lines, returning the trimmed capture of the first line whose text matches
the credentials regex. -/
def firstCredMatch : List (List Char) → Option (List Char)
  | [] => none
  | l :: ls =>
    match credScan l with
    | some v => some v
    | none => firstCredMatch ls

/-- Fallback test of _extractCredentials: the line consists solely of
hexadecimal digits and colons and is longer than 20 characters. -/
def hexCandidate (l : List Char) : Bool :=
  l.all isHexColonChar && decide (20 < l.length)

/-- The second for-loop of _extractCredentials: bottom-to-top scan
returning the first line from the end that looks like a credential
string. -/
def lastHexLine : List (List Char) → Option (List Char)
  | [] => none
  | l :: ls =>
    match lastHexLine ls with
    | some v => some v
    | none => if hexCandidate l then some l else none

/-- PyatvBackend._extractCredentials, embedded from the source. -/
def extractCredentials (output : List Char) : Option (List Char) :=
  match firstCredMatch (credLines output) with
  | some v => some v
  | none => lastHexLine (credLines output)

/-- Modelled from the claim wording of C1: rule 1 looks for a
case-insensitive credentials: PREFIX of the line and returns the remainder
trimmed; rules 2 and 3 as in the source.  Used only to exhibit where the
claim and the code disagree. -/
def claimExtractCredentials (output : List Char) : Option (List Char) :=
  let lines := credLines output
  match lines.find? (fun l => jsToLower (l.take 12) == ("credentials:").toList) with
  | some l => some (trimChars (l.drop 12))
  | none => lines.reverse.find? hexCandidate

/-- Declarative restatement of the extraction rule actually implemented:
first line containing a [Cc]redentials?: occurrence (top to bottom), else
first hex-and-colon line longer than 20 characters from the bottom, else
none. -/
def extractCredentialsDecl (output : List Char) : Option (List Char) :=
  let lines := credLines output
  match lines.find? (fun l => (credScan l).isSome) with
  | some l => credScan l
  | none => lines.reverse.find? hexCandidate

/-- Result of the pairFinish exit handler: the promise either resolves
with a status and a credentials string or rejects with an error
message. -/
inductive PairFinishResult
  | resolved (status : List Char) (credentials : List Char)
  | rejected (message : List Char)
deriving DecidableEq

/-- The status string paired. -/
def pairedChars : List Char := ("paired").toList

/-- Error message built by the pairFinish exit handler on a non-zero exit
without credentials; the excerpt of the output is bounded by
substring(0, 300). -/
def pairFailMsg (code : Int) (output : List Char) : List Char :=
  ("Pairing failed after PIN entry (exit code ").toList ++ (toString code).toList ++
  ("): ").toList ++ output.take 300

/-- JavaScript truthiness of a nullable string. -/
def truthyStrOpt (o : Option (List Char)) : Bool :=
  match o with
  | some s => !s.isEmpty
  | none => false

/-- Exit handler of PyatvBackend.pairFinish: extract credentials from the
collected output; resolve paired with them when truthy, resolve paired
with the trimmed raw output when the exit code is zero, otherwise reject
with a bounded excerpt. -/
def pairFinishOnExit (code : Int) (output : List Char) : PairFinishResult :=
  let credentials := extractCredentials output
  if truthyStrOpt credentials then PairFinishResult.resolved pairedChars (credentials.getD [])
  else if code == 0 then PairFinishResult.resolved pairedChars (trimChars output)
  else PairFinishResult.rejected (pairFailMsg code output)

/-- Reference to a live pairing child process as pairFinish sees it: only
the killed flag matters for the entry guard. -/
structure ProcRef where
  killed : Bool
deriving DecidableEq

/-- Observable side effects of the pairing surface. -/
inductive PairEffect
  | spawnProc
  | writeStdin (data : List Char)
  | killProc
  | callPairFinish
deriving DecidableEq

/-- Error message of the pairFinish guard when no pairing process is
live. -/
def noActiveMsg : List Char := ("No active pairing process. Start pairing first.").toList

/-- Entry guard of PyatvBackend.pairFinish: with no live process (absent
or already killed) it throws immediately; otherwise it writes the PIN
plus a newline to the stdin of the process. -/
def pairFinishGuard (pairProcess : Option ProcRef) (pin : List Char) :
    Except (List Char) Unit × List PairEffect :=
  match pairProcess with
  | none => (Except.error noActiveMsg, [])
  | some p =>
    if p.killed then (Except.error noActiveMsg, [])
    else (Except.ok (), [PairEffect.writeStdin (pin ++ ['\n'])])

/-- One pairing child process in the process table: its pid, the device
identifier it was spawned for, whether it is still running, and whether
kill was called on it. -/
structure PairProc where
  pid : Nat
  owner : List Char
  alive : Bool
  killed : Bool
deriving DecidableEq

/-- A PyatvBackend instance as the pairing surface sees it: the device
identifier of its config and the reference to its pairing process. -/
structure PBackend where
  ident : List Char
  pairProcess : Option Nat
deriving DecidableEq

/-- Global state of the pairing surface: the pid counter, the process
table, and the adapter registry of pairing sessions keyed by device
identifier. -/
structure PairWorld where
  nextPid : Nat
  procs : List PairProc
  sessions : List (List Char × PBackend)
deriving DecidableEq

/-- Killed flag of the process with the given pid. -/
def procKilled (w : PairWorld) (p : Nat) : Bool :=
  match w.procs.find? (fun q => q.pid == p) with
  | some q => q.killed
  | none => false

/-- Effect of proc.kill on the process table. -/
def killPid (w : PairWorld) (p : Nat) : PairWorld :=
  { w with procs := w.procs.map (fun q => if q.pid == p then { q with alive := false, killed := true } else q) }

/-- PyatvBackend.pairAbort: if this backend holds a process that was not
yet killed, kill it and clear the reference. -/
def pairAbort (b : PBackend) (w : PairWorld) : PBackend × PairWorld :=
  match b.pairProcess with
  | some p =>
    if procKilled w p then (b, w)
    else ({ b with pairProcess := none }, killPid w p)
  | none => (b, w)

/-- Spawn of a pairing child process for the given identifier. -/
def spawnPair (ident : List Char) (w : PairWorld) : Nat × PairWorld :=
  (w.nextPid,
   { w with nextPid := w.nextPid + 1,
            procs := w.procs ++ [⟨w.nextPid, ident, true, false⟩] })

/-- PyatvBackend.pairStart on one backend instance, resolution path where
the process reaches the PIN prompt: first pairAbort, then spawn, then
store the new process reference. -/
def pairStart (b : PBackend) (w : PairWorld) : PBackend × PairWorld :=
  match pairAbort b w with
  | (b1, w1) =>
    match spawnPair b1.ident w1 with
    | (pid, w2) => ({ b1 with pairProcess := some pid }, w2)

/-- Map.set on the session registry: replace the entry for the identifier
or insert a new one. -/
def sessionsSet (sessions : List (List Char × PBackend)) (ident : List Char) (b : PBackend) :
    List (List Char × PBackend) :=
  if sessions.any (fun kv => kv.1 == ident) then
    sessions.map (fun kv => if kv.1 == ident then (ident, b) else kv)
  else sessions ++ [(ident, b)]

/-- The startPairing message handler of main.js on the awaiting-PIN path:
create a dedicated fresh backend for this pairing attempt, run pairStart
on it, and store the backend in the session registry under the
identifier, replacing any previous entry. -/
def startPairing (ident : List Char) (w : PairWorld) : PairWorld :=
  match pairStart ⟨ident, none⟩ w with
  | (b1, w1) => { w1 with sessions := sessionsSet w1.sessions ident b1 }

/-- Number of live pairing processes spawned for the given identifier. -/
def liveCountFor (ident : List Char) (w : PairWorld) : Nat :=
  (w.procs.filter (fun p => p.owner == ident && p.alive)).length

/-- The empty pairing world. -/
def emptyPairWorld : PairWorld := ⟨1, [], []⟩

/-- Registry lookup used by the submitPin handler. -/
def lookupSession (sessions : List (List Char × PBackend)) (ident : List Char) :
    Option PBackend :=
  (sessions.find? (fun kv => kv.1 == ident)).map (fun kv => kv.2)

/-- Outcome of the submitPin message handler before any pairing work. -/
inductive SubmitPinResult
  | rejected (msg : List Char)
  | noSession (ident : List Char)
  | finishing (ident : List Char) (pin : List Char)
deriving DecidableEq

/-- Error message of the submitPin PIN-shape guard. -/
def pinErrMsg : List Char := ("PIN must be exactly 4 digits").toList

/-- The submitPin message handler of main.js up to the hand-off to
pairFinish: the PIN string is validated first, then the session registry
is consulted, and only then is pairFinish invoked on the stored
backend. -/
def submitPin (ident pin : List Char) (sessions : List (List Char × PBackend)) :
    SubmitPinResult × List PairEffect :=
  if pin.isEmpty ∨ pin.length ≠ 4 then (SubmitPinResult.rejected pinErrMsg, [])
  else
    match lookupSession sessions ident with
    | none => (SubmitPinResult.noSession ident, [])
    | some _ => (SubmitPinResult.finishing ident pin, [PairEffect.callPairFinish])

/-- Fully populated now-playing snapshot as built by the pyatv backend. -/
structure PlayingData where
  title : List Char
  artist : List Char
  album : List Char
  genre : List Char
  mediaType : List Char
  deviceState : List Char
  app : List Char
  appId : List Char
  position : Int
  duration : Int
  shuffle : List Char
  repeatMode : List Char
deriving DecidableEq

/-- Tagged union of push update events delivered to the onUpdate
callback. -/
inductive PushEvent
  | power (state : Bool)
  | playing (data : PlayingData)
  | volume (level : Int)
  | connection (connected : Bool) (reason : List Char)
deriving DecidableEq

/-- Terminal lifecycle signals a push-updates child process can deliver:
a process error or a process exit.  Node delivers each at most once per
execution, but both can occur. -/
inductive PushSignal
  | procError (msg : List Char)
  | procExit (code : Int)
deriving DecidableEq

/-- The error and exit handlers registered by startPushUpdates: each
signal produces one connection event with connected false and the
corresponding reason tag. -/
def pushTerminalEvent : PushSignal → PushEvent
  | PushSignal.procError _ => PushEvent.connection false (("process_error").toList)
  | PushSignal.procExit _ => PushEvent.connection false (("process_exit").toList)

/-- Connection events emitted over a whole execution delivering the given
sequence of terminal signals: the handlers carry no single-emission
guard, so every signal emits. -/
def pushTerminalEvents (sigs : List PushSignal) : List PushEvent :=
  sigs.map pushTerminalEvent

/-- One parsed JSON line of the push_updates stream, with the fields the
stdout handler inspects; absent JSON fields are none. -/
structure PushJson where
  result : List Char
  power_state : Option (List Char)
  title : Option (List Char)
  artist : Option (List Char)
  album : Option (List Char)
  genre : Option (List Char)
  media_type : Option (List Char)
  device_state : Option (List Char)
  app : Option (List Char)
  app_id : Option (List Char)
  position : Option Int
  total_time : Option Int
  shuffle : Option (List Char)
  repeatMode : Option (List Char)
  volume : Option Int
  connection : Option (List Char)
deriving DecidableEq

/-- A push JSON value with no optional field present. -/
def emptyPushJson : PushJson :=
  ⟨[], none, none, none, none, none, none, none, none, none, none, none, none, none, none, none⟩

/-- JavaScript x or default for nullable strings: an absent or empty
string falls back to the default. -/
def jsOrDefault (o : Option (List Char)) (d : List Char) : List Char :=
  match o with
  | some s => if s.isEmpty then d else s
  | none => d

/-- JavaScript x or 0 for nullable numbers. -/
def jsOrZero (o : Option Int) : Int :=
  match o with
  | some n => n
  | none => 0

/-- PyatvBackend._processPushEvent: decompose one parsed line into zero
or more push events, in the source order power, playing, volume,
connection. -/
def processPushEvent (e : PushJson) : List PushEvent :=
  (match e.power_state with
   | some ps => [PushEvent.power (ps == ("on").toList)]
   | none => []) ++
  (if e.title.isSome || e.device_state.isSome then
     [PushEvent.playing
       { title := jsOrDefault e.title [],
         artist := jsOrDefault e.artist [],
         album := jsOrDefault e.album [],
         genre := jsOrDefault e.genre [],
         mediaType := jsToLower (jsOrDefault e.media_type (("unknown").toList)),
         deviceState := jsToLower (jsOrDefault e.device_state (("idle").toList)),
         app := jsOrDefault e.app [],
         appId := jsOrDefault e.app_id [],
         position := jsOrZero e.position,
         duration := jsOrZero e.total_time,
         shuffle := jsToLower (jsOrDefault e.shuffle (("off").toList)),
         repeatMode := jsToLower (jsOrDefault e.repeatMode (("off").toList)) }]
   else []) ++
  (match e.volume with
   | some v => [PushEvent.volume v]
   | none => []) ++
  (match e.connection with
   | some r => [PushEvent.connection false r]
   | none => [])

/-- Log lines the stdout handler can produce per input line. -/
inductive ParseLog
  | debugParseFail (line : List Char)
  | warnPushError (line : List Char)
deriving DecidableEq

/-- Handling of one complete line by the push_updates stdout handler:
blank lines are skipped, a line that fails to parse is skipped with a
debug log, a parsed line whose result is not success is skipped with a
warning, and a successful line is decomposed into events. -/
def processLine (parse : List Char → Option PushJson) (line : List Char) :
    List PushEvent × List ParseLog :=
  if (trimChars line).isEmpty then ([], [])
  else
    match parse line with
    | none => ([], [ParseLog.debugParseFail line])
    | some ev =>
      if ev.result == ("success").toList then (processPushEvent ev, [])
      else ([], [ParseLog.warnPushError line])

/-- Sequential handling of a list of complete lines, events and logs
accumulated in arrival order. -/
def processLines (parse : List Char → Option PushJson) :
    List (List Char) → List PushEvent × List ParseLog
  | [] => ([], [])
  | l :: ls =>
    ((processLine parse l).1 ++ (processLines parse ls).1,
     (processLine parse l).2 ++ (processLines parse ls).2)

/-- Result of feeding one stdout chunk to the handler: the new unterminated
line buffer and the emitted events and logs. -/
structure FeedOut where
  buffer : List Char
  events : List PushEvent
  logs : List ParseLog
deriving DecidableEq

/-- The stdout data handler of startPushUpdates: append the chunk to the
buffer, split on newlines, keep the trailing unterminated line as the new
buffer, and process every complete line. -/
def feedChunk (parse : List Char → Option PushJson) (buf chunk : List Char) : FeedOut :=
  ⟨(splitNl (buf ++ chunk)).2,
   (processLines parse (splitNl (buf ++ chunk)).1).1,
   (processLines parse (splitNl (buf ++ chunk)).1).2⟩

/-- Concrete parse function used as an input in witnesses: exactly the
line v5 parses, to a successful volume-5 event line. -/
def sampleParse : List Char → Option PushJson :=
  fun l =>
    if l == ("v5").toList then
      some { emptyPushJson with result := ("success").toList, volume := some 5 }
    else none

/-- Reconnect backoff base delay in milliseconds, from constants.js. -/
def RECONNECT_BASE_DELAY : Nat := 5000

/-- Reconnect backoff maximum delay in milliseconds, from constants.js. -/
def RECONNECT_MAX_DELAY : Nat := 300000

/-- Ceiling on scheduled reconnect attempts, from constants.js. -/
def MAX_RECONNECT_ATTEMPTS : Nat := 10

/-- Per-device connectivity state of DeviceManager: whether a reconnect
timer is pending, the attempt counter, the connected flag, and which of
the push handle, poll timer and artwork timer are active. -/
structure DMState where
  reconnectTimerPending : Bool
  reconnectAttempts : Nat
  connected : Bool
  pushActive : Bool
  pollActive : Bool
  artworkActive : Bool
deriving DecidableEq

/-- What one call of the reconnect scheduler did. -/
inductive SchedOutcome
  | noopPending
  | gaveUp
  | scheduled (delay : Nat)
deriving DecidableEq

/-- The delay expression of _scheduleReconnect:
min(RECONNECT_BASE_DELAY * 2 ^ attempts, RECONNECT_MAX_DELAY). -/
def reconnectDelay (attempts : Nat) : Nat :=
  min (RECONNECT_BASE_DELAY * 2 ^ attempts) RECONNECT_MAX_DELAY

/-- DeviceManager._scheduleReconnect: no-op when a timer is pending,
terminal when the attempt ceiling is reached, otherwise compute the
delay from the current counter, increment the counter and arm the
timer. -/
def scheduleReconnect (st : DMState) : DMState × SchedOutcome :=
  if st.reconnectTimerPending then (st, SchedOutcome.noopPending)
  else if MAX_RECONNECT_ATTEMPTS ≤ st.reconnectAttempts then (st, SchedOutcome.gaveUp)
  else
    ({ st with reconnectAttempts := st.reconnectAttempts + 1, reconnectTimerPending := true },
     SchedOutcome.scheduled (reconnectDelay st.reconnectAttempts))

/-- Externally visible actions of the DeviceManager handlers. -/
inductive DMAction
  | setConnected (v : Bool)
  | setPlaying (d : PlayingData)
  | setPower (v : Bool)
  | setVolume (v : Int)
  | invokeScheduler
  | doDisconnect
  | doConnect
deriving DecidableEq

/-- DeviceManager.disconnect: stop the push handle, poll timer, reconnect
timer and artwork timer, and mark disconnected. -/
def dmDisconnect (st : DMState) : DMState × List DMAction :=
  ({ st with pushActive := false, pollActive := false, reconnectTimerPending := false,
             artworkActive := false, connected := false },
   [DMAction.setConnected false])

/-- DeviceManager.connect with the given outcome of startPushUpdates:
on success enter push mode, reset the attempt counter, mark connected and
start artwork polling; on failure fall back to poll mode. -/
def dmConnect (pushOk : Bool) (st : DMState) : DMState × List DMAction :=
  if pushOk then
    ({ st with pushActive := true, connected := true, reconnectAttempts := 0,
               artworkActive := true },
     [DMAction.setConnected true])
  else
    ({ st with pollActive := true }, [])

/-- The catch branch of one poll tick of _startPolling: the failure is
logged and the device marked disconnected; the scheduler is not
invoked. -/
def pollTickFailure (st : DMState) : DMState × List DMAction :=
  if st.connected then ({ st with connected := false }, [DMAction.setConnected false])
  else (st, [])

/-- DeviceManager._handlePushEvent: playing, power and volume events
update states; a connection event with connected false marks the device
disconnected and invokes the reconnect scheduler. -/
def handlePushEvent (e : PushEvent) (st : DMState) : DMState × List DMAction :=
  match e with
  | PushEvent.playing d => (st, [DMAction.setPlaying d])
  | PushEvent.power b => (st, [DMAction.setPower b])
  | PushEvent.volume v => (st, [DMAction.setVolume v])
  | PushEvent.connection c _ =>
    if c then (st, [])
    else
      (( scheduleReconnect { st with connected := false }).1,
       [DMAction.setConnected false, DMAction.invokeScheduler])

/-- The reconnect timer callback: clear the timer reference, then run
disconnect followed by connect; when that sequence throws, the catch
branch re-invokes the scheduler.  ok says whether the awaited sequence
completed, pushOk parametrises the connect attempt. -/
def reconnectTimerFired (ok pushOk : Bool) (st : DMState) : DMState × List DMAction :=
  let st1 := { st with reconnectTimerPending := false }
  if ok then
    match dmDisconnect st1 with
    | (st2, a2) =>
      match dmConnect pushOk st2 with
      | (st3, a3) => (st3, DMAction.doDisconnect :: a2 ++ DMAction.doConnect :: a3)
  else
    ((scheduleReconnect st1).1,
     [DMAction.doDisconnect, DMAction.doConnect, DMAction.invokeScheduler])

/-- One app object of the atvscript app_list JSON. -/
structure AppJson where
  name : Option (List Char)
  identifier : Option (List Char)
deriving DecidableEq

/-- The atvscript app_list JSON envelope. -/
structure AppListJson where
  apps : Option (List AppJson)
deriving DecidableEq

/-- One entry of the app list returned by getAppList. -/
structure AppEntry where
  name : List Char
  id : List Char
deriving DecidableEq

/-- Warning logs of the two getAppList implementations. -/
inductive AppListLog
  | warnFailed (msg : List Char)
deriving DecidableEq

/-- Warning message of the pyatv getAppList catch branch. -/
def appListWarnMsg (err : List Char) : List Char :=
  ("Failed to get app list (companion credentials may be needed): ").toList ++ err

/-- PyatvBackend.getAppList over the outcome of the atvscript
invocation: map the apps array on success, and on any error resolve with
an empty list plus a warning. -/
def pyatvGetAppList (r : Except (List Char) AppListJson) :
    List AppEntry × List AppListLog :=
  match r with
  | Except.error e => ([], [AppListLog.warnFailed (appListWarnMsg e)])
  | Except.ok j =>
    ((j.apps.getD []).map (fun a => ⟨jsOrDefault a.name [], jsOrDefault a.identifier []⟩), [])

/-- Warning message of the node backend getAppList. -/
def nodeAppListMsg : List Char :=
  ("App list is not supported by node-appletv-x backend").toList

/-- NodeBackend.getAppList: always an empty list plus a warning. -/
def nodeGetAppList : List AppEntry × List AppListLog :=
  ([], [AppListLog.warnFailed nodeAppListMsg])

/-- C3 (amended): each terminal lifecycle signal of the push-updates
process yields exactly one connection event with connected false, tagged
process_error for a process error and process_exit for a process exit;
one event is emitted per signal, so an execution delivering both an
error and an exit signal emits two events. -/
theorem push_terminal_signal_spec :
    (∀ m, pushTerminalEvents [PushSignal.procError m] =
       [PushEvent.connection false (("process_error").toList)]) ∧
    (∀ c, pushTerminalEvents [PushSignal.procExit c] =
       [PushEvent.connection false (("process_exit").toList)]) ∧
    (∀ sigs, (pushTerminalEvents sigs).length = sigs.length) :=
  ⟨fun _ => rfl, fun _ => rfl, fun sigs => by simp [pushTerminalEvents]⟩

/-- C3 counterexample: an execution whose process fails to spawn and then
also reports an exit emits two terminal connection events, not exactly
one, because the handlers carry no single-emission guard. -/
theorem push_terminal_double_emit :
    (pushTerminalEvents
      [PushSignal.procError (("spawn ENOENT").toList), PushSignal.procExit 1]).length = 2 ∧
    (pushTerminalEvents
      [PushSignal.procError (("spawn ENOENT").toList), PushSignal.procExit 1]).length ≠ 1 := by
  constructor <;> decide

/-- C4: the reconnect scheduler is a no-op while a timer is pending, is
terminal once the attempt ceiling of 10 is reached, and otherwise arms a
timer for min(base * 2 ^ attempts, max) milliseconds while incrementing
the counter; the delay sequence is non-decreasing and saturates at the
maximum from attempt 6 on, and the armed timer performs disconnect
followed by connect. -/
theorem reconnect_scheduler_spec :
    (∀ st : DMState, st.reconnectTimerPending = true →
       scheduleReconnect st = (st, SchedOutcome.noopPending)) ∧
    (∀ st : DMState, st.reconnectTimerPending = false →
       MAX_RECONNECT_ATTEMPTS ≤ st.reconnectAttempts →
       scheduleReconnect st = (st, SchedOutcome.gaveUp)) ∧
    (∀ st : DMState, st.reconnectTimerPending = false →
       st.reconnectAttempts < MAX_RECONNECT_ATTEMPTS →
       scheduleReconnect st =
         ({ st with reconnectAttempts := st.reconnectAttempts + 1,
                    reconnectTimerPending := true },
          SchedOutcome.scheduled (reconnectDelay st.reconnectAttempts))) ∧
    (∀ j k : Nat, j ≤ k → reconnectDelay j ≤ reconnectDelay k) ∧
    (∀ k : Nat, 6 ≤ k → reconnectDelay k = RECONNECT_MAX_DELAY) ∧
    (∀ (pushOk : Bool) (st : DMState),
       ((reconnectTimerFired true pushOk st).2).take 3 =
         [DMAction.doDisconnect, DMAction.setConnected false, DMAction.doConnect]) := by
  refine ⟨?_, ?_, ?_, ?_, ?_, ?_⟩
  · intro st h; simp [scheduleReconnect, h]
  · intro st h1 h2; simp [scheduleReconnect, h1, h2]
  · intro st h1 h2; simp [scheduleReconnect, h1, Nat.not_le.mpr h2]
  · intro j k h
    unfold reconnectDelay
    exact min_le_min (Nat.mul_le_mul le_rfl (Nat.pow_le_pow_right (by norm_num) h)) le_rfl
  · intro k hk
    have h1 : (64 : Nat) ≤ 2 ^ k := by
      calc (64 : Nat) = 2 ^ 6 := by norm_num
        _ ≤ 2 ^ k := Nat.pow_le_pow_right (by norm_num) hk
    have h2 : RECONNECT_MAX_DELAY ≤ RECONNECT_BASE_DELAY * 2 ^ k := by
      calc RECONNECT_MAX_DELAY ≤ 5000 * 64 := by norm_num [RECONNECT_MAX_DELAY]
        _ ≤ 5000 * 2 ^ k := Nat.mul_le_mul le_rfl h1
        _ = RECONNECT_BASE_DELAY * 2 ^ k := rfl
    exact Nat.min_eq_right h2
  · intro pushOk st; cases pushOk <;> rfl

/-- C4 witness: the scheduler evaluated at concrete states for each of
the three branches, plus concrete delay facts. -/
theorem reconnect_scheduler_witness :
    scheduleReconnect ⟨true, 2, false, true, false, false⟩ =
      (⟨true, 2, false, true, false, false⟩, SchedOutcome.noopPending) ∧
    scheduleReconnect ⟨false, 10, false, true, false, false⟩ =
      (⟨false, 10, false, true, false, false⟩, SchedOutcome.gaveUp) ∧
    scheduleReconnect ⟨false, 3, false, true, false, false⟩ =
      (⟨true, 4, false, true, false, false⟩, SchedOutcome.scheduled (reconnectDelay 3)) ∧
    reconnectDelay 2 ≤ reconnectDelay 5 ∧
    reconnectDelay 8 = RECONNECT_MAX_DELAY :=
  ⟨reconnect_scheduler_spec.1 _ rfl,
   reconnect_scheduler_spec.2.1 _ rfl (by decide),
   reconnect_scheduler_spec.2.2.1 _ rfl (by decide),
   reconnect_scheduler_spec.2.2.2.1 2 5 (by decide),
   reconnect_scheduler_spec.2.2.2.2.1 8 (by decide)⟩

/-- C6: pairFinish with no live pairing process (no reference, or a
killed process) rejects immediately with the no-active-session error and
performs no spawn and no stdin write. -/
theorem pairFinish_no_session (pp : Option ProcRef) (pin : List Char)
    (h : pp = none ∨ pp = some ⟨true⟩) :
    pairFinishGuard pp pin = (Except.error noActiveMsg, []) := by
  rcases h with h | h <;> subst h <;> rfl

/-- C6 witness: the guard evaluated with no process reference. -/
theorem pairFinish_no_session_witness :
    pairFinishGuard none (("1234").toList) = (Except.error noActiveMsg, []) :=
  pairFinish_no_session none (("1234").toList) (Or.inl rfl)

/-- C9: getAppList never rejects: the pyatv backend maps any execution
error to an empty list plus a warning and maps success to the parsed
list, and the node backend always returns an empty list plus a
warning. -/
theorem getAppList_soft_degrade :
    (∀ e, pyatvGetAppList (Except.error e) =
       ([], [AppListLog.warnFailed (appListWarnMsg e)])) ∧
    (∀ j, (pyatvGetAppList (Except.ok j)).2 = []) ∧
    nodeGetAppList = ([], [AppListLog.warnFailed nodeAppListMsg]) :=
  ⟨fun _ => rfl, fun _ => rfl, rfl⟩

/-- C10: the submitPin handler rejects a PIN whose string form is empty
or not exactly 4 characters with the fixed error message, with no
effects, for every session registry state. -/
theorem submitPin_rejects_bad_pin (ident pin : List Char)
    (sessions : List (List Char × PBackend))
    (h : pin.isEmpty = true ∨ pin.length ≠ 4) :
    submitPin ident pin sessions = (SubmitPinResult.rejected pinErrMsg, []) := by
  rcases h with h | h
  · simp [submitPin, h]
  · simp [submitPin, h]

/-- C10 witness: a five-character PIN is rejected identically on two
different registry states. -/
theorem submitPin_rejects_bad_pin_witness :
    submitPin (("dev").toList) (("12345").toList) [] =
      (SubmitPinResult.rejected pinErrMsg, []) ∧
    submitPin (("dev").toList) (("12345").toList)
        [((("dev").toList), ⟨("dev").toList, some 3⟩)] =
      (SubmitPinResult.rejected pinErrMsg, []) :=
  ⟨submitPin_rejects_bad_pin _ _ _ (Or.inr (by decide)),
   submitPin_rejects_bad_pin _ _ _ (Or.inr (by decide))⟩

/-- C2 counterexample: two successive startPairing calls for the same
identifier leave two live pairing processes for that identifier, because
the handler creates a fresh backend per call and replaces the registry
entry without aborting the process of the previous backend. -/
theorem startPairing_twice_two_live :
    liveCountFor (("dev").toList)
      (startPairing (("dev").toList) (startPairing (("dev").toList) emptyPairWorld)) = 2 ∧
    ¬ liveCountFor (("dev").toList)
      (startPairing (("dev").toList) (startPairing (("dev").toList) emptyPairWorld)) ≤ 1 := by
  constructor <;> decide

/-- C2 (amended): pairStart on one backend instance aborts the pairing
process owned by that instance before spawning a new one, so at most one
pairing process per backend instance is live; the adapter-level
startPairing handler, however, uses a fresh backend per call, so the
prior process of the same identifier is not aborted. -/
theorem pairStart_backend_aborts_previous (b : PBackend) (w : PairWorld) (p : Nat)
    (hb : b.pairProcess = some p) (hk : procKilled w p = false)
    (hfresh : p < w.nextPid) :
    (∀ q ∈ ((pairStart b w).2).procs, q.pid = p → q.killed = true ∧ q.alive = false) ∧
    ((pairStart b w).1).pairProcess = some w.nextPid := by
  have habort : pairAbort b w = ({ b with pairProcess := none }, killPid w p) := by
    simp [pairAbort, hb, hk]
  constructor
  · intro q hq hqp
    simp only [pairStart, habort, spawnPair, killPid, List.mem_append,
      List.mem_map, List.mem_singleton] at hq
    rcases hq with ⟨r, _, rfl⟩ | rfl
    · by_cases hrp : (r.pid == p) = true
      · simp [hrp]
      · rw [if_neg (by simpa using hrp)] at hqp ⊢
        exact absurd hqp (by simpa using hrp)
    · exact absurd hqp (by simp; omega)
  · simp [pairStart, habort, spawnPair, killPid]

/-- C2 witness: a backend holding live process 0 in a world with pid
counter 1; pairStart kills process 0 and installs process 1. -/
theorem pairStart_backend_aborts_previous_witness :
    (∀ q ∈ ((pairStart ⟨("dev").toList, some 0⟩
        ⟨1, [⟨0, ("dev").toList, true, false⟩], []⟩).2).procs,
       q.pid = 0 → q.killed = true ∧ q.alive = false) ∧
    ((pairStart ⟨("dev").toList, some 0⟩
        ⟨1, [⟨0, ("dev").toList, true, false⟩], []⟩).1).pairProcess = some 1 :=
  pairStart_backend_aborts_previous _ _ 0 rfl (by decide) (by decide)

theorem firstCredMatch_eq_find (ls : List (List Char)) :
    firstCredMatch ls =
      match ls.find? (fun l => (credScan l).isSome) with
      | some l => credScan l
      | none => none := by
  induction ls with
  | nil => rfl
  | cons l ls ih =>
    cases h : credScan l with
    | some v =>
      rw [List.find?_cons_of_pos _ (by simp [h])]
      simp [firstCredMatch, h]
    | none =>
      rw [List.find?_cons_of_neg _ (by simp [h])]
      simpa [firstCredMatch, h] using ih

theorem lastHexLine_eq_find (ls : List (List Char)) :
    lastHexLine ls = ls.reverse.find? hexCandidate := by
  induction ls with
  | nil => rfl
  | cons l ls ih =>
    rw [List.reverse_cons, List.find?_append]
    cases h : lastHexLine ls with
    | some v =>
      have h2 : List.find? hexCandidate ls.reverse = some v := ih ▸ h
      simp [lastHexLine, h, h2]
    | none =>
      have h2 : List.find? hexCandidate ls.reverse = none := ih ▸ h
      simp only [lastHexLine, h, h2, Option.none_or]
      cases hx : hexCandidate l <;> simp [List.find?, hx]

theorem extractCredentials_eq_decl (output : List Char) :
    extractCredentials output = extractCredentialsDecl output := by
  unfold extractCredentials extractCredentialsDecl
  rw [firstCredMatch_eq_find]
  cases h : (credLines output).find? (fun l => (credScan l).isSome) with
  | some l =>
    have hp := List.find?_some h
    simp only [Option.isSome_iff_exists] at hp
    obtain ⟨v, hv⟩ := hp
    simp [h, hv]
  | none => simp [h, lastHexLine_eq_find]

/-- C1 (amended): the credential extraction equals the declarative rule
that (1) scans trimmed non-empty lines top to bottom for the first line
containing an occurrence of credential(s): with the initial letter in
either case and returns the text after the colon trimmed, (2) otherwise
scans bottom to top for the first line composed solely of hexadecimal
digits and colons with length over 20 and returns it, (3) otherwise
returns none; with the concrete behaviours on a prefixed line, on a
24-character hex last line, and on an input with neither pattern. -/
theorem extractCredentials_rule_spec :
    (∀ output, extractCredentials output = extractCredentialsDecl output) ∧
    extractCredentials (("Starting pairing\ncredentials: AB12:CD34\n").toList) =
      some (("AB12:CD34").toList) ∧
    extractCredentials (("Pairing done\nAA11BB22CC33DD44EE55FF66\n").toList) =
      some (("AA11BB22CC33DD44EE55FF66").toList) ∧
    extractCredentials (("hello\nworld\n").toList) = none :=
  ⟨extractCredentials_eq_decl, by decide, by decide, by decide⟩

/-- C1 counterexample: on the single line CREDENTIALS: AB12:CD34 the
claimed case-insensitive rule yields AB12:CD34, but the code matches only
an initial-letter-case variant of the marker and therefore finds
nothing. -/
theorem extractCredentials_case_counterexample :
    extractCredentials (("CREDENTIALS: AB12:CD34").toList) = none ∧
    claimExtractCredentials (("CREDENTIALS: AB12:CD34").toList) =
      some (("AB12:CD34").toList) := by
  constructor <;> decide

theorem dropWhile_head_not (p : Char → Bool) (l : List Char) (a : Char) (t : List Char)
    (h : l.dropWhile p = a :: t) : p a = false := by
  induction l with
  | nil => simp at h
  | cons c cs ih =>
    rw [List.dropWhile_cons] at h
    by_cases hc : p c = true
    · rw [if_pos hc] at h; exact ih h
    · rw [if_neg hc] at h
      cases h
      simpa using hc

theorem dropWhile_ne_nil_of_mem (p : Char → Bool) (l : List Char) (x : Char)
    (hx : x ∈ l) (hpx : p x = false) : l.dropWhile p ≠ [] := by
  intro hnil
  have := List.dropWhile_eq_nil_iff.mp hnil x hx
  rw [hpx] at this
  exact Bool.false_ne_true this

theorem trimChars_cons_ne_nil (a : Char) (t : List Char) (ha : isWs a = false) :
    trimChars (a :: t) ≠ [] := by
  unfold trimChars
  rw [List.dropWhile_cons, if_neg (by simp [ha])]
  intro hcontra
  rw [List.reverse_eq_nil_iff] at hcontra
  exact dropWhile_ne_nil_of_mem isWs (a :: t).reverse a (by simp) ha hcontra

theorem notLineTerm_of_not_ws (a : Char) (ha : isWs a = false) :
    notLineTerm a = true := by
  simp only [isWs, Bool.or_eq_false_iff, beq_eq_false_iff_ne, ne_eq] at ha
  obtain ⟨⟨⟨⟨⟨⟨⟨h1, h2⟩, h3⟩, h4⟩, h5⟩, h6⟩, h7⟩, h8⟩ := ha
  simp [notLineTerm, h3, h4, h7, h8]

theorem credCapture_some_ne_nil (rest v : List Char)
    (h : credCapture rest = some v) : v ≠ [] := by
  unfold credCapture at h
  by_cases he : (rest.dropWhile isWs).isEmpty = true
  · simp [he] at h
  · rw [if_neg he] at h
    cases hd : rest.dropWhile isWs with
    | nil => rw [hd] at he; simp at he
    | cons a t =>
      have ha : isWs a = false := dropWhile_head_not isWs rest a t hd
      rw [hd, List.takeWhile_cons, if_pos (notLineTerm_of_not_ws a ha)] at h
      cases h
      exact trimChars_cons_ne_nil a _ ha

theorem credAt_some_ne_nil (l v : List Char) (h : credAt l = some v) : v ≠ [] := by
  unfold credAt at h
  split at h
  · exact credCapture_some_ne_nil _ _ h
  · split at h
    · exact credCapture_some_ne_nil _ _ h
    · simp at h

theorem credScan_some_ne_nil (l v : List Char) (h : credScan l = some v) : v ≠ [] := by
  induction l with
  | nil => simp [credScan] at h
  | cons c cs ih =>
    rw [credScan] at h
    cases hA : credAt (c :: cs) with
    | some w => rw [hA] at h; cases h; exact credAt_some_ne_nil _ _ hA
    | none => rw [hA] at h; exact ih h

theorem firstCredMatch_some_ne_nil (ls : List (List Char)) (v : List Char)
    (h : firstCredMatch ls = some v) : v ≠ [] := by
  induction ls with
  | nil => simp [firstCredMatch] at h
  | cons l ls ih =>
    rw [firstCredMatch] at h
    cases hc : credScan l with
    | some w => rw [hc] at h; cases h; exact credScan_some_ne_nil _ _ hc
    | none => rw [hc] at h; exact ih h

theorem lastHexLine_some_ne_nil (ls : List (List Char)) (v : List Char)
    (h : lastHexLine ls = some v) : v ≠ [] := by
  induction ls with
  | nil => simp [lastHexLine] at h
  | cons l ls ih =>
    rw [lastHexLine] at h
    cases hc : lastHexLine ls with
    | some w => rw [hc] at h; cases h; exact ih hc
    | none =>
      rw [hc] at h
      by_cases hx : hexCandidate l = true
      · rw [if_pos hx] at h
        cases h
        have : 20 < v.length := by
          have := (Bool.and_eq_true _ _).mp hx
          simpa using this.2
        intro hnil
        rw [hnil] at this
        simp at this
      · rw [if_neg hx] at h; simp at h

theorem extractCredentials_some_ne_nil (output v : List Char)
    (h : extractCredentials output = some v) : v ≠ [] := by
  unfold extractCredentials at h
  cases hf : firstCredMatch (credLines output) with
  | some w => rw [hf] at h; cases h; exact firstCredMatch_some_ne_nil _ _ hf
  | none => rw [hf] at h; exact lastHexLine_some_ne_nil _ _ h

/-- C5: on process exit after PIN submission, pairFinish resolves paired
with the extracted credentials when the extraction rule finds one,
resolves paired with the trimmed raw output when the exit code is zero
and nothing was extracted, and otherwise rejects with an error whose
output excerpt is bounded by 300 characters. -/
theorem pairFinish_exit_spec :
    (∀ (code : Int) (output c : List Char), extractCredentials output = some c →
       pairFinishOnExit code output = PairFinishResult.resolved pairedChars c) ∧
    (∀ output : List Char, extractCredentials output = none →
       pairFinishOnExit 0 output = PairFinishResult.resolved pairedChars (trimChars output)) ∧
    (∀ (code : Int) (output : List Char), extractCredentials output = none → code ≠ 0 →
       pairFinishOnExit code output = PairFinishResult.rejected (pairFailMsg code output) ∧
       (output.take 300).length ≤ 300) := by
  refine ⟨?_, ?_, ?_⟩
  · intro code output c hc
    have hne := extractCredentials_some_ne_nil output c hc
    have htr : truthyStrOpt (some c) = true := by
      simpa [truthyStrOpt, List.isEmpty_eq_true] using hne
    simp [pairFinishOnExit, hc, htr]
  · intro output h
    simp [pairFinishOnExit, h, truthyStrOpt]
  · intro code output h hcode
    constructor
    · simp [pairFinishOnExit, h, truthyStrOpt, hcode]
    · rw [List.length_take]
      exact min_le_left _ _

/-- C5 witness: the three exit-handler branches evaluated at concrete
outputs and exit codes. -/
theorem pairFinish_exit_witness :
    pairFinishOnExit 1 (("credentials: AB12:CD34").toList) =
      PairFinishResult.resolved pairedChars (("AB12:CD34").toList) ∧
    pairFinishOnExit 0 (("hello").toList) =
      PairFinishResult.resolved pairedChars (trimChars (("hello").toList)) ∧
    (pairFinishOnExit 7 (("hello").toList) =
       PairFinishResult.rejected (pairFailMsg 7 (("hello").toList)) ∧
     ((("hello").toList).take 300).length ≤ 300) :=
  ⟨pairFinish_exit_spec.1 1 _ _ (by decide),
   pairFinish_exit_spec.2.1 _ (by decide),
   pairFinish_exit_spec.2.2 7 _ (by decide) (by decide)⟩

theorem splitNl_append (a b : List Char) :
    splitNl (a ++ b) =
      ((splitNl a).1 ++ (splitNl ((splitNl a).2 ++ b)).1,
       (splitNl ((splitNl a).2 ++ b)).2) := by
  induction a with
  | nil => simp [splitNl]
  | cons c cs ih =>
    by_cases hc : c = '\n'
    · subst hc
      show splitNl ('\n' :: (cs ++ b)) = _
      rw [splitNl, ih]
      cases hcs : splitNl cs with
      | mk S1 S2 => simp [splitNl, hcs]
    · show splitNl (c :: (cs ++ b)) = _
      rw [splitNl, ih]
      cases hcs : splitNl cs with
      | mk S1 S2 =>
        cases S1 with
        | nil =>
          simp only [splitNl, hcs, if_neg hc, List.nil_append]
          rfl
        | cons h t => simp [splitNl, hcs, if_neg hc]

theorem splitNl_no_newline (l : List Char) (h : '\n' ∉ l) : splitNl l = ([], l) := by
  induction l with
  | nil => rfl
  | cons c cs ih =>
    have hc : ¬ c = '\n' := fun e => h (e ▸ List.mem_cons_self c cs)
    have ihc := ih (fun m => h (List.mem_cons_of_mem c m))
    simp [splitNl, ihc, hc]

theorem splitNl_line (x y : List Char) (hx : '\n' ∉ x) :
    splitNl (x ++ '\n' :: y) = (x :: (splitNl y).1, (splitNl y).2) := by
  induction x with
  | nil => simp [splitNl]
  | cons c cs ih =>
    have hc : ¬ c = '\n' := fun e => hx (e ▸ List.mem_cons_self c cs)
    have ihc := ih (fun m => hx (List.mem_cons_of_mem c m))
    show splitNl (c :: (cs ++ '\n' :: y)) = _
    rw [splitNl, ihc]
    simp [hc]

theorem processLines_append (parse : List Char → Option PushJson)
    (xs ys : List (List Char)) :
    processLines parse (xs ++ ys) =
      ((processLines parse xs).1 ++ (processLines parse ys).1,
       (processLines parse xs).2 ++ (processLines parse ys).2) := by
  induction xs with
  | nil => simp [processLines]
  | cons l ls ih => simp [processLines, ih]

/-- C7: the push line parser buffers input and splits it on newline
boundaries with the trailing unterminated line retained, so feeding two
chunks equals feeding their concatenation; a line that fails to parse is
skipped with one debug log and removes no later events; two well-formed
lines arriving in order produce their events in that order; and a chunk
without a newline only extends the buffer. -/
theorem push_stream_parser_spec :
    (∀ parse (buf c1 c2 : List Char),
       (feedChunk parse buf (c1 ++ c2)).buffer =
         (feedChunk parse (feedChunk parse buf c1).buffer c2).buffer ∧
       (feedChunk parse buf (c1 ++ c2)).events =
         (feedChunk parse buf c1).events ++
           (feedChunk parse (feedChunk parse buf c1).buffer c2).events ∧
       (feedChunk parse buf (c1 ++ c2)).logs =
         (feedChunk parse buf c1).logs ++
           (feedChunk parse (feedChunk parse buf c1).buffer c2).logs) ∧
    (∀ parse (pre : List (List Char)) (bad : List Char) (post : List (List Char)),
       parse bad = none → (trimChars bad).isEmpty = false →
       (processLines parse (pre ++ bad :: post)).1 =
         (processLines parse pre).1 ++ (processLines parse post).1 ∧
       (processLines parse (pre ++ bad :: post)).2 =
         (processLines parse pre).2 ++
           ParseLog.debugParseFail bad :: (processLines parse post).2) ∧
    (∀ parse (l1 l2 : List Char), '\n' ∉ l1 → '\n' ∉ l2 →
       (feedChunk parse [] (l1 ++ '\n' :: (l2 ++ ['\n']))).events =
         (processLine parse l1).1 ++ (processLine parse l2).1 ∧
       (feedChunk parse [] (l1 ++ '\n' :: (l2 ++ ['\n']))).buffer = []) ∧
    (∀ parse (buf c : List Char), '\n' ∉ buf ++ c →
       feedChunk parse buf c = ⟨buf ++ c, [], []⟩) := by
  refine ⟨?_, ?_, ?_, ?_⟩
  · intro parse buf c1 c2
    have hsplit : splitNl (buf ++ (c1 ++ c2)) =
        ((splitNl (buf ++ c1)).1 ++ (splitNl ((splitNl (buf ++ c1)).2 ++ c2)).1,
         (splitNl ((splitNl (buf ++ c1)).2 ++ c2)).2) := by
      rw [← List.append_assoc]
      exact splitNl_append (buf ++ c1) c2
    refine ⟨?_, ?_, ?_⟩ <;>
      simp [feedChunk, hsplit, processLines_append]
  · intro parse pre bad post hparse htrim
    have hline : processLine parse bad = ([], [ParseLog.debugParseFail bad]) := by
      simp [processLine, htrim, hparse]
    constructor
    · rw [processLines_append]
      simp [processLines, hline]
    · rw [processLines_append]
      simp [processLines, hline]
  · intro parse l1 l2 h1 h2
    have hsp : splitNl (l1 ++ '\n' :: (l2 ++ ['\n'])) =
        ([l1, l2], []) := by
      rw [splitNl_line l1 _ h1]
      rw [show (l2 ++ ['\n'] : List Char) = l2 ++ '\n' :: [] from rfl,
         splitNl_line l2 [] h2]
      rfl
    constructor
    · simp [feedChunk, hsp, processLines]
    · simp [feedChunk, hsp]
  · intro parse buf c h
    simp [feedChunk, splitNl_no_newline _ h, processLines]

/-- C7 witness: the parser evaluated on concrete lines with a concrete
parse function: a malformed line between two well-formed ones, two
complete lines in one chunk, and a newline-free chunk. -/
theorem push_stream_parser_witness :
    ((processLines sampleParse ([("v5").toList] ++ ("zz").toList :: [("v5").toList])).1 =
       (processLines sampleParse [("v5").toList]).1 ++
         (processLines sampleParse [("v5").toList]).1 ∧
     (processLines sampleParse ([("v5").toList] ++ ("zz").toList :: [("v5").toList])).2 =
       (processLines sampleParse [("v5").toList]).2 ++
         ParseLog.debugParseFail (("zz").toList) ::
           (processLines sampleParse [("v5").toList]).2) ∧
    ((feedChunk sampleParse [] ((("v5").toList) ++ '\n' :: ((("zz").toList) ++ ['\n']))).events =
       (processLine sampleParse (("v5").toList)).1 ++
         (processLine sampleParse (("zz").toList)).1 ∧
     (feedChunk sampleParse [] ((("v5").toList) ++ '\n' :: ((("zz").toList) ++ ['\n']))).buffer = []) ∧
    feedChunk sampleParse (("ab").toList) (("cd").toList) =
      ⟨("ab").toList ++ ("cd").toList, [], []⟩ :=
  ⟨push_stream_parser_spec.2.1 sampleParse _ _ _ (by decide) (by decide),
   push_stream_parser_spec.2.2.1 sampleParse _ _ (by decide) (by decide),
   push_stream_parser_spec.2.2.2 sampleParse _ _ (by decide)⟩

/-- C8 (amended): a failed poll tick marks the device disconnected and
never invokes the reconnect scheduler; among the push handlers the
scheduler is invoked exactly by a connection event with connected false;
additionally the reconnect timer callback itself re-invokes the
scheduler when its disconnect-connect sequence fails, and not when it
succeeds. -/
theorem poll_push_scheduler_spec :
    (∀ st : DMState, (pollTickFailure st).1.connected = false ∧
       DMAction.invokeScheduler ∉ (pollTickFailure st).2) ∧
    (∀ (e : PushEvent) (st : DMState),
       DMAction.invokeScheduler ∈ (handlePushEvent e st).2 ↔
         ∃ r, e = PushEvent.connection false r) ∧
    (∀ (pushOk : Bool) (st : DMState),
       DMAction.invokeScheduler ∈ (reconnectTimerFired false pushOk st).2 ∧
       DMAction.invokeScheduler ∉ (reconnectTimerFired true pushOk st).2) := by
  refine ⟨?_, ?_, ?_⟩
  · intro st
    by_cases h : st.connected = true
    · simp [pollTickFailure, h]
    · simp only [Bool.not_eq_true] at h
      simp [pollTickFailure, h]
  · intro e st
    cases e with
    | playing d => simp [handlePushEvent]
    | power b => simp [handlePushEvent]
    | volume v => simp [handlePushEvent]
    | connection c r =>
      cases c with
      | true => simp [handlePushEvent]
      | false => simp [handlePushEvent]
  · intro pushOk st
    constructor
    · simp [reconnectTimerFired]
    · cases pushOk <;> simp [reconnectTimerFired, dmDisconnect, dmConnect]

/-- C8 counterexample: the reconnect timer callback invokes the
scheduler from its failure branch, an invocation site that is not a push
connection event. -/
theorem reconnect_callback_invokes_scheduler :
    DMAction.invokeScheduler ∈
      (reconnectTimerFired false true ⟨true, 3, false, true, false, false⟩).2 := by
  decide
